import Mathlib

/-
Verification development for the Hex License Python client
(src/examples/python.py).  The client is shallowly embedded: Python
exceptions are modelled with Except (an uncaught exception is an
Except.error carrying the client state at the moment of the raise),
machine time is modelled as Int seconds, JSON values as an inductive
type, and the external AES block cipher, UTF-8 codec, JSON codec and
ISO-8601 parser as an explicit record of external functions.
-/

set_option autoImplicit false

namespace HexLicense

/-! ## Constants (LicenseClient class constants) -/

def OFFLINE_GRACE_DAYS : Nat := 7

/-- Model of datetime.timedelta(days=OFFLINE_GRACE_DAYS) in seconds. -/
def graceSeconds : Int := (OFFLINE_GRACE_DAYS : Int) * 86400

/-! ## JSON values, as produced by json.loads -/

inductive Json where
  | null
  | bool (b : Bool)
  | num (n : Int)
  | str (s : String)
  | arr (elems : List Json)
  | obj (fields : List (String × Json))

/-- Python truthiness of a JSON value. -/
def Json.truthy : Json → Bool
  | .null => false
  | .bool b => b
  | .num n => n != 0
  | .str s => s != ""
  | .arr xs => !xs.isEmpty
  | .obj fs => !fs.isEmpty

/-- Test used for Python membership of a string in a list: only an equal
string element matches. -/
def Json.isStrVal : Json → String → Bool
  | .str s, k => s == k
  | _, _ => false

/-- First binding of a key in a field list (Python dicts have unique keys). -/
def lookupField (fs : List (String × Json)) (k : String) : Option Json :=
  match fs.find? (fun p => p.1 == k) with
  | some p => some p.2
  | none => none

/-- Model of dict.get(k, default). -/
def dictGet (fs : List (String × Json)) (k : String) (d : Json) : Json :=
  match lookupField fs k with
  | some v => v
  | none => d

/-- Model of the dict membership test k in d. -/
def hasField (fs : List (String × Json)) (k : String) : Bool :=
  fs.any (fun p => p.1 == k)

def charsStartWith : List Char → List Char → Bool
  | [], _ => true
  | _ :: _, [] => false
  | n :: ns, h :: hs => n == h && charsStartWith ns hs

/-- Contiguous occurrence of the first character list in the second. -/
def charsInfix (needle : List Char) : List Char → Bool
  | [] => needle.isEmpty
  | h :: hs => charsStartWith needle (h :: hs) || charsInfix needle hs

/-- Model of the Python expression k in cache for an arbitrary JSON value:
substring test on strings, membership on lists, key test on dicts,
TypeError otherwise. -/
def pyContains : Json → String → Except Unit Bool
  | .obj fs, k => .ok (hasField fs k)
  | .arr xs, k => .ok (xs.any (fun j => j.isStrVal k))
  | .str s, k => .ok (charsInfix k.data s.data)
  | _, _ => .error ()

/-- Model of cache[k] with a string key: KeyError on a missing dict key,
TypeError on every non-dict value. -/
def pyGetItem : Json → String → Except Unit Json
  | .obj fs, k =>
    match lookupField fs k with
    | some v => .ok v
    | none => .error ()
  | _, _ => .error ()

/-- Replacement or insertion of a key in a field list, keeping positions
(Python dict assignment semantics). -/
def setField (fs : List (String × Json)) (k : String) (v : Json) : List (String × Json) :=
  if fs.any (fun p => p.1 == k) then
    fs.map (fun p => if p.1 == k then (k, v) else p)
  else
    fs ++ [(k, v)]

/-- Model of cache[k] = v: TypeError on a non-dict value. -/
def pySetItem : Json → String → Json → Except Unit Json
  | .obj fs, k, v => .ok (.obj (setField fs k v))
  | _, _, _ => .error ()

/-! ## External functions (AES block cipher, codecs, ISO-8601 parser).
These are runtime library calls, not code of the repository; the
embedding abstracts them as an explicit record. -/

structure Externals where
  blockEnc : List Nat → List Nat → List Nat
  blockDec : List Nat → List Nat → List Nat
  utf8Encode : String → List Nat
  utf8Decode : List Nat → Except Unit String
  jsonLoads : String → Except Unit Json
  jsonDumps : Json → String
  sha256Bytes : String → List Nat
  fromIso : String → Except Unit Int

/-- Model of datetime.datetime.fromisoformat applied to a JSON value:
TypeError on a non-string argument, ValueError possible on strings. -/
def pyFromIsoJson (fromIso : String → Except Unit Int) : Json → Except Unit Int
  | .str s => fromIso s
  | _ => .error ()

/-! ## Client state and configuration -/

structure ClientState where
  license_info : Option Json
  offline_mode : Bool
  cacheFile : Option String

structure Config where
  license_key : Option String
  hwid : String

/-- Environment of one validate() call: the server interaction result
(error is any transport, HTTP or body-decode failure), the two clock
readings, the random IV drawn by save_cache and the crypto capability. -/
structure NetEnv where
  serverResponse : Except Unit Json
  nowIso : String
  ivRand : List Nat
  hasCrypto : Bool
  offlineNow : Int

/-- Python falsiness of the license_key option (None or empty string). -/
def keyMissing : Option String → Bool
  | none => true
  | some s => s == ""

/-! ## Hex codec (bytes.fromhex and bytes.hex) -/

def hexDigitVal? (c : Char) : Option Nat :=
  let n := c.toNat
  if 48 ≤ n ∧ n ≤ 57 then some (n - 48)
  else if 97 ≤ n ∧ n ≤ 102 then some (n - 87)
  else if 65 ≤ n ∧ n ≤ 70 then some (n - 55)
  else none

def fromHexList : List Char → Option (List Nat)
  | [] => some []
  | [_] => none
  | c1 :: c2 :: rest =>
    match hexDigitVal? c1, hexDigitVal? c2, fromHexList rest with
    | some h, some l, some bs => some ((16 * h + l) :: bs)
    | _, _, _ => none

/-- Model of bytes.fromhex: ValueError becomes none. -/
def fromHex (s : String) : Option (List Nat) :=
  fromHexList s.data

def hexChar (n : Nat) : Char :=
  if n < 10 then Char.ofNat (48 + n) else Char.ofNat (87 + n)

def bytesToHexChars : List Nat → List Char
  | [] => []
  | b :: bs => hexChar (b / 16) :: hexChar (b % 16) :: bytesToHexChars bs

/-- Model of bytes.hex (lowercase). -/
def toHex (bs : List Nat) : String :=
  String.mk (bytesToHexChars bs)

/-! ## Model of str.split with a one-character separator -/

def splitCharsOnColon : List Char → List (List Char)
  | [] => [[]]
  | c :: rest =>
    let r := splitCharsOnColon rest
    if c = ':' then [] :: r
    else
      match r with
      | [] => [[c]]
      | h :: t => (c :: h) :: t

def pySplitColon (s : String) : List String :=
  (splitCharsOnColon s.data).map String.mk

/-! ## CryptoEngine: PKCS#7 padding and AES-256-CBC chaining.
The AES block permutation itself is the external blockEnc / blockDec;
the CBC chaining, padding and byte plumbing follow the source. -/

def xorBytes (a b : List Nat) : List Nat :=
  List.zipWith (fun x y => x ^^^ y) a b

def concatBlocks : List (List Nat) → List Nat
  | [] => []
  | b :: bs => b ++ concatBlocks bs

def toBlocksAux : Nat → List Nat → List (List Nat)
  | _, [] => []
  | 0, _ :: _ => []
  | fuel + 1, x :: xs => ((x :: xs).take 16) :: toBlocksAux fuel ((x :: xs).drop 16)

/-- Split a byte list into successive 16-byte blocks (the last one may be
short).  The fuel argument only drives structural recursion; it is
always sufficient. -/
def toBlocks (l : List Nat) : List (List Nat) :=
  toBlocksAux l.length l

def cbcEncryptBlocks (E : List Nat → List Nat) (iv : List Nat) : List (List Nat) → List (List Nat)
  | [] => []
  | b :: bs =>
    let c := E (xorBytes iv b)
    c :: cbcEncryptBlocks E c bs

def cbcDecryptBlocks (D : List Nat → List Nat) (iv : List Nat) : List (List Nat) → List (List Nat)
  | [] => []
  | c :: cs => xorBytes iv (D c) :: cbcDecryptBlocks D c cs

/-- Source _pad_data: PKCS#7 padding to the 16-byte block size. -/
def _pad_data (data : List Nat) : List Nat :=
  let padding_size := 16 - data.length % 16
  data ++ List.replicate padding_size padding_size

/-- Python slice data[:-k] for a Nat k. -/
def pySliceToNeg (data : List Nat) (k : Nat) : List Nat :=
  if k = 0 then [] else data.take (data.length - k)

/-- Source _unpad_data: reads the final byte as the padding length and
truncates; IndexError (none) exactly on empty input. -/
def _unpad_data (data : List Nat) : Option (List Nat) :=
  match data.getLast? with
  | none => none
  | some padding_size => some (pySliceToNeg data padding_size)

/-- Source _encrypt_aes: UTF-8 encode, pad, AES-256-CBC encrypt. -/
def _encrypt_aes (ext : Externals) (data : String) (key iv : List Nat) : List Nat :=
  concatBlocks (cbcEncryptBlocks (ext.blockEnc key) iv (toBlocks (_pad_data (ext.utf8Encode data))))

/-- Source _decrypt_aes: AES-256-CBC decrypt, strip padding, UTF-8
decode.  A ciphertext that is not a whole number of blocks makes the
cipher finalizer raise; an empty plaintext makes _unpad_data raise. -/
def _decrypt_aes (ext : Externals) (data : List Nat) (key iv : List Nat) : Except Unit String :=
  if data.length % 16 ≠ 0 then .error ()
  else
    let decrypted := concatBlocks (cbcDecryptBlocks (ext.blockDec key) iv (toBlocks data))
    match _unpad_data decrypted with
    | none => .error ()
    | some u => ext.utf8Decode u

/-- Source _get_encryption_key: SHA-256 digest of the HWID string. -/
def _get_encryption_key (ext : Externals) (hwid : String) : List Nat :=
  ext.sha256Bytes hwid

/-! ## validate_offline (the second, effective definition in the source) -/

/-- Success tail of validate_offline: assign license_info, set its
offlineMode item (a raise here would leave license_info assigned), set
offline_mode, return True. -/
def acceptCache (st : ClientState) (cache : Json) : Except ClientState (Bool × ClientState) :=
  match pySetItem cache "offlineMode" (Json.bool true) with
  | .ok cache2 => .ok (true, { st with license_info := some cache2, offline_mode := true })
  | .error _ => .error { st with license_info := some cache }

/-- Checks applied to the decrypted, JSON-decoded cache value: field
presence, grace window, license expiry, then acceptance. -/
def checkCache (ext : Externals) (now : Int) (st : ClientState) (cache : Json) :
    Except ClientState (Bool × ClientState) :=
  match pyContains cache "validatedAt" with
  | .error _ => .error st
  | .ok hasV =>
    if !hasV then .ok (false, st)
    else
      match pyContains cache "expiresAt" with
      | .error _ => .error st
      | .ok hasE =>
        if !hasE then .ok (false, st)
        else
          match pyGetItem cache "validatedAt" with
          | .error _ => .error st
          | .ok vj =>
            match pyFromIsoJson ext.fromIso vj with
            | .error _ => .error st
            | .ok validated_at =>
              if now > validated_at + graceSeconds then .ok (false, st)
              else
                match pyGetItem cache "expiresAt" with
                | .error _ => .error st
                | .ok ej =>
                  if ej.truthy then
                    match pyFromIsoJson ext.fromIso ej with
                    | .error _ => .error st
                    | .ok expires_at =>
                      if now > expires_at then .ok (false, st)
                      else acceptCache st cache
                  else acceptCache st cache

/-- Body of the try block of validate_offline: missing file, split,
hex decode, capability gate, decrypt, JSON decode, then checkCache. -/
def validateOfflineBody (ext : Externals) (hasCrypto : Bool) (now : Int) (hwid : String)
    (st : ClientState) : Except ClientState (Bool × ClientState) :=
  match st.cacheFile with
  | none => .ok (false, st)
  | some data =>
    match pySplitColon data with
    | [iv_hex, encrypted_data_hex] =>
      match fromHex iv_hex, fromHex encrypted_data_hex with
      | some iv, some encrypted_data =>
        if !hasCrypto then .ok (false, st)
        else
          match _decrypt_aes ext encrypted_data (_get_encryption_key ext hwid) iv with
          | .error _ => .error st
          | .ok decrypted =>
            match ext.jsonLoads decrypted with
            | .error _ => .error st
            | .ok cache => checkCache ext now st cache
      | _, _ => .error st
    | _ => .error st

/-- Source validate_offline: the try body with its catch-all handler,
which returns False. -/
def validate_offline (ext : Externals) (hasCrypto : Bool) (now : Int) (hwid : String)
    (st : ClientState) : Except ClientState (Bool × ClientState) :=
  match validateOfflineBody ext hasCrypto now hwid st with
  | .ok r => .ok r
  | .error st2 => .ok (false, st2)

/-! ## save_cache -/

/-- Body of the try block of save_cache. -/
def saveCacheBody (ext : Externals) (hwid : String) (ivRand : List Nat) (hasCrypto : Bool)
    (st : ClientState) : Except ClientState (Bool × ClientState) :=
  match st.license_info with
  | none => .ok (false, st)
  | some li =>
    if !li.truthy then .ok (false, st)
    else
      match li with
      | .obj fs =>
        if !(dictGet fs "valid" Json.null).truthy then .ok (false, st)
        else if !hasCrypto then .ok (false, st)
        else
          let key := _get_encryption_key ext hwid
          let encrypted_data := _encrypt_aes ext (ext.jsonDumps (Json.obj fs)) key ivRand
          let combined := toHex ivRand ++ ":" ++ toHex encrypted_data
          .ok (true, { st with cacheFile := some combined })
      | _ => .error st

/-- Source save_cache: the try body with its catch-all handler. -/
def save_cache (ext : Externals) (hwid : String) (ivRand : List Nat) (hasCrypto : Bool)
    (st : ClientState) : Except ClientState (Bool × ClientState) :=
  match saveCacheBody ext hwid ivRand hasCrypto st with
  | .ok r => .ok r
  | .error st2 => .ok (false, st2)

/-! ## validate -/

/-- Body of the try block of validate: server call, response dispatch.
A non-dict response body raises at response_data.get (AttributeError). -/
def validateBody (ext : Externals) (cfg : Config) (env : NetEnv) (st : ClientState) :
    Except ClientState (Bool × ClientState) :=
  match env.serverResponse with
  | .error _ => .error st
  | .ok response_data =>
    match response_data with
    | .obj fs =>
      if (dictGet fs "valid" Json.null).truthy then
        let record := Json.obj
          [("valid", Json.bool true),
           ("expiresAt", dictGet fs "expiresAt" Json.null),
           ("features", dictGet fs "features" (Json.arr [])),
           ("owner", dictGet fs "owner" (Json.str "Unknown")),
           ("validatedAt", Json.str env.nowIso),
           ("offlineMode", Json.bool false)]
        let st1 : ClientState := { st with license_info := some record, offline_mode := false }
        match save_cache ext cfg.hwid env.ivRand env.hasCrypto st1 with
        | .ok r2 => .ok (true, r2.2)
        | .error st2 => .error st2
      else
        let record := Json.obj
          [("valid", Json.bool false),
           ("error", dictGet fs "error" (Json.str "License validation failed"))]
        .ok (false, { st with license_info := some record })
    | _ => .error st

/-- Source validate: key gate, then the try body; the except handler
falls back to validate_offline and returns its verdict. -/
def validate (ext : Externals) (cfg : Config) (env : NetEnv) (st : ClientState) :
    Except ClientState (Bool × ClientState) :=
  if keyMissing cfg.license_key then .ok (false, st)
  else
    match validateBody ext cfg env st with
    | .ok r => .ok r
    | .error st2 =>
      match validate_offline ext env.hasCrypto env.offlineNow cfg.hwid st2 with
      | .ok r => .ok r
      | .error st3 => .error st3

/-! ## Acceptance predicates extracted from checkCache, used to state the
offline acceptance characterization -/

/-- Grace window passes: now is at most validatedAt plus seven days. -/
def graceOk (now validated_at : Int) : Bool :=
  decide (now ≤ validated_at + graceSeconds)

/-- Expiry check passes: the stored expiresAt is falsy (null, empty), or
parses to a time not before now.  A truthy value that does not parse
counts as a failure (the raise is caught and rejected). -/
def expiryOk (fromIso : String → Except Unit Int) (now : Int) (ej : Json) : Bool :=
  if ej.truthy then
    match pyFromIsoJson fromIso ej with
    | .ok e => decide (now ≤ e)
    | .error _ => false
  else true

/-! ## Concrete fixtures used by witnesses and counterexamples -/

/-- Cached record carrying only validatedAt (no expiresAt key). -/
def demoRecordNoExpiry : Json := Json.obj [("validatedAt", Json.str "0")]

/-- Cached record carrying validatedAt and a null expiresAt. -/
def demoRecordNullExpiry : Json :=
  Json.obj [("validatedAt", Json.str "0"), ("expiresAt", Json.null)]

def demoStrA : String := "V0"

def demoStrB : String := "V1"

/-- Concrete externals for witnesses: identity block cipher, character
code UTF-8 stand-in, table-driven JSON codec, integer ISO parser. -/
def extW : Externals where
  blockEnc := fun _ b => b
  blockDec := fun _ b => b
  utf8Encode := fun s => s.data.map Char.toNat
  utf8Decode := fun bs => .ok (String.mk (bs.map (fun n => Char.ofNat n)))
  jsonLoads := fun s =>
    if s == demoStrA then .ok demoRecordNoExpiry
    else if s == demoStrB then .ok demoRecordNullExpiry
    else .error ()
  jsonDumps := fun _ => demoStrA
  sha256Bytes := fun _ => List.replicate 32 0
  fromIso := fun s => if s == "0" then .ok 0 else .error ()

def ivZero : List Nat := List.replicate 16 0

def keyW : List Nat := _get_encryption_key extW "hw"

/-- Cache file content encrypting demoStrA under the witness externals. -/
def cexContentA : String :=
  toHex ivZero ++ ":" ++ toHex (_encrypt_aes extW demoStrA keyW ivZero)

def cexStA : ClientState := ⟨none, false, some cexContentA⟩

/-- Cache file content encrypting demoStrB under the witness externals. -/
def cexContentB : String :=
  toHex ivZero ++ ":" ++ toHex (_encrypt_aes extW demoStrB keyW ivZero)

def cexStB : ClientState := ⟨none, false, some cexContentB⟩

def stEmpty : ClientState := ⟨none, false, none⟩

/-- Configuration with a license key present. -/
def cfgW : Config := ⟨some "k", "hw"⟩

/-- Configuration with no license key. -/
def cfgNoKey : Config := ⟨none, "hw"⟩

/-- Environment whose server responds with a valid false verdict. -/
def envReject : NetEnv := ⟨.ok (Json.obj [("valid", Json.bool false)]), "t", [], true, 0⟩

/-! ## Byte-level lemmas -/

lemma xorBytes_length (a b : List Nat) : (xorBytes a b).length = min a.length b.length := by
  simp [xorBytes, List.length_zipWith]

lemma xorBytes_xorBytes (iv b : List Nat) (h : b.length ≤ iv.length) :
    xorBytes iv (xorBytes iv b) = b := by
  induction b generalizing iv with
  | nil => simp [xorBytes]
  | cons x xs ih =>
    cases iv with
    | nil => simp at h
    | cons y ys =>
      simp only [List.length_cons] at h
      have hih := ih ys (by omega)
      simp only [xorBytes, List.zipWith_cons_cons, Nat.xor_cancel_left] at hih ⊢
      rw [hih]

lemma cbcDecryptBlocks_cbcEncryptBlocks (E D : List Nat → List Nat)
    (hED : ∀ b, b.length = 16 → D (E b) = b)
    (hlen : ∀ b, b.length = 16 → (E b).length = 16)
    (iv : List Nat) (hiv : iv.length = 16)
    (bs : List (List Nat)) (hbs : ∀ b ∈ bs, b.length = 16) :
    cbcDecryptBlocks D iv (cbcEncryptBlocks E iv bs) = bs := by
  induction bs generalizing iv with
  | nil => rfl
  | cons b rest ih =>
    have hb : b.length = 16 := hbs b (by simp)
    have hxb : (xorBytes iv b).length = 16 := by
      rw [xorBytes_length, hiv, hb]
      simp
    simp only [cbcEncryptBlocks, cbcDecryptBlocks]
    rw [hED _ hxb, xorBytes_xorBytes iv b (by omega)]
    rw [ih (E (xorBytes iv b)) (hlen _ hxb) (fun x hx => hbs x (List.mem_cons_of_mem b hx))]

lemma cbcEncryptBlocks_lengths (E : List Nat → List Nat)
    (hlen : ∀ b, b.length = 16 → (E b).length = 16)
    (iv : List Nat) (hiv : iv.length = 16)
    (bs : List (List Nat)) (hbs : ∀ b ∈ bs, b.length = 16) :
    ∀ c ∈ cbcEncryptBlocks E iv bs, c.length = 16 := by
  induction bs generalizing iv with
  | nil => simp [cbcEncryptBlocks]
  | cons b rest ih =>
    have hxb : (xorBytes iv b).length = 16 := by
      rw [xorBytes_length, hiv, hbs b (by simp)]
      simp
    intro c hc
    simp only [cbcEncryptBlocks] at hc
    rcases List.mem_cons.mp hc with h | h
    · rw [h]
      exact hlen _ hxb
    · exact ih (E (xorBytes iv b)) (hlen _ hxb)
        (fun x hx => hbs x (List.mem_cons_of_mem b hx)) c h

lemma concatBlocks_length_mod (bs : List (List Nat)) (h : ∀ b ∈ bs, b.length = 16) :
    (concatBlocks bs).length % 16 = 0 := by
  induction bs with
  | nil => rfl
  | cons b rest ih =>
    have hb : b.length = 16 := h b (by simp)
    have ht := ih (fun x hx => h x (by simp [hx]))
    simp only [concatBlocks, List.length_append, hb]
    omega

lemma toBlocksAux_fuel (f1 : Nat) : ∀ (f2 : Nat) (l : List Nat),
    l.length ≤ f1 → l.length ≤ f2 → toBlocksAux f1 l = toBlocksAux f2 l := by
  induction f1 with
  | zero =>
    intro f2 l h1 _
    have : l = [] := List.length_eq_zero.mp (Nat.le_zero.mp h1)
    subst this
    cases f2 <;> rfl
  | succ f ih =>
    intro f2 l h1 h2
    cases l with
    | nil => cases f2 <;> rfl
    | cons x xs =>
      cases f2 with
      | zero => simp at h2
      | succ f2p =>
        simp only [toBlocksAux]
        congr 1
        apply ih
        · simp only [List.length_drop, List.length_cons]
          simp only [List.length_cons] at h1
          omega
        · simp only [List.length_drop, List.length_cons]
          simp only [List.length_cons] at h2
          omega

lemma toBlocks_nil : toBlocks [] = [] := rfl

lemma toBlocks_cons (l : List Nat) (h : l ≠ []) :
    toBlocks l = l.take 16 :: toBlocks (l.drop 16) := by
  cases l with
  | nil => exact absurd rfl h
  | cons x xs =>
    show toBlocksAux (x :: xs).length (x :: xs) = _
    simp only [List.length_cons, toBlocksAux]
    congr 1
    apply toBlocksAux_fuel
    · simp only [List.length_drop, List.length_cons]
      omega
    · exact le_refl _

lemma concatBlocks_toBlocks (l : List Nat) : concatBlocks (toBlocks l) = l := by
  by_cases h : l = []
  · subst h
    rfl
  · rw [toBlocks_cons l h]
    simp only [concatBlocks]
    rw [concatBlocks_toBlocks (l.drop 16)]
    exact List.take_append_drop 16 l
termination_by l.length
decreasing_by
  simp only [List.length_drop]
  have := List.length_pos.mpr h
  omega

lemma toBlocks_concatBlocks (bs : List (List Nat)) (h : ∀ b ∈ bs, b.length = 16) :
    toBlocks (concatBlocks bs) = bs := by
  induction bs with
  | nil => rfl
  | cons b rest ih =>
    have hb : b.length = 16 := h b (by simp)
    have hne : concatBlocks (b :: rest) ≠ [] := by
      simp only [concatBlocks]
      intro hc
      have := congrArg List.length hc
      simp [hb, List.length_append] at this
    rw [toBlocks_cons _ hne]
    simp only [concatBlocks]
    congr 1
    · rw [← hb]
      exact List.take_left b (concatBlocks rest)
    · rw [← hb, List.drop_left]
      exact ih (fun x hx => h x (by simp [hx]))

lemma toBlocks_lengths (l : List Nat) (h : l.length % 16 = 0) :
    ∀ b ∈ toBlocks l, b.length = 16 := by
  by_cases hl : l = []
  · subst hl
    simp [toBlocks_nil]
  · rw [toBlocks_cons l hl]
    have hpos := List.length_pos.mpr hl
    intro b hb
    rcases List.mem_cons.mp hb with hb | hb
    · rw [hb]
      simp only [List.length_take]
      omega
    · exact toBlocks_lengths (l.drop 16) (by simp only [List.length_drop]; omega) b hb
termination_by l.length
decreasing_by
  simp only [List.length_drop]
  have := List.length_pos.mpr hl
  omega

lemma pad_length_mod (data : List Nat) : (_pad_data data).length % 16 = 0 := by
  simp only [_pad_data, List.length_append, List.length_replicate]
  omega

lemma unpad_pad_gen (data : List Nat) (c : Nat) (hc : 0 < c) :
    _unpad_data (data ++ List.replicate c c) = some data := by
  obtain ⟨q, hq⟩ : ∃ q, c = q + 1 := ⟨c - 1, by omega⟩
  subst hq
  rw [List.replicate_succ', ← List.append_assoc]
  have hlen : ((data ++ List.replicate q (q + 1)) ++ [q + 1]).length = data.length + q + 1 := by
    simp only [List.length_append, List.length_replicate, List.length_cons, List.length_nil]
  simp only [_unpad_data, List.getLast?_concat, pySliceToNeg]
  rw [if_neg (by omega), hlen]
  have h2 : data.length + q + 1 - (q + 1) = data.length := by omega
  rw [h2, List.append_assoc, List.take_left]

lemma unpad_pad (data : List Nat) : _unpad_data (_pad_data data) = some data := by
  have : _pad_data data
      = data ++ List.replicate (16 - data.length % 16) (16 - data.length % 16) := rfl
  rw [this]
  exact unpad_pad_gen data _ (by omega)

/-- C4: for every string payload and fixed key and 16-byte IV, decrypting
the encryption of the payload returns the original payload; PKCS#7 padding
added by _pad_data is removed by _unpad_data.  The AES block permutation
and the UTF-8 codec are library functions, abstracted by the hypotheses
that block decryption inverts block encryption on 16-byte blocks, that
encrypted blocks keep length 16, and that UTF-8 decode inverts encode. -/
theorem C4_aes_roundtrip (ext : Externals) (key iv : List Nat) (payload : String)
    (hED : ∀ b, b.length = 16 → ext.blockDec key (ext.blockEnc key b) = b)
    (hlen : ∀ b, b.length = 16 → (ext.blockEnc key b).length = 16)
    (hiv : iv.length = 16)
    (hutf : ext.utf8Decode (ext.utf8Encode payload) = .ok payload) :
    _decrypt_aes ext (_encrypt_aes ext payload key iv) key iv = .ok payload := by
  unfold _encrypt_aes _decrypt_aes
  have hpad := pad_length_mod (ext.utf8Encode payload)
  have hblocks : ∀ b ∈ toBlocks (_pad_data (ext.utf8Encode payload)), b.length = 16 :=
    toBlocks_lengths _ hpad
  have henc := cbcEncryptBlocks_lengths (ext.blockEnc key) hlen iv hiv _ hblocks
  have hmod := concatBlocks_length_mod _ henc
  rw [if_neg (by omega)]
  rw [toBlocks_concatBlocks _ henc]
  rw [cbcDecryptBlocks_cbcEncryptBlocks _ _ hED hlen iv hiv _ hblocks]
  simp only [concatBlocks_toBlocks, unpad_pad]
  exact hutf

/-- C4 witness: concrete round trip through the witness externals. -/
theorem C4_aes_roundtrip_witness :
    _decrypt_aes extW (_encrypt_aes extW "V0" keyW ivZero) keyW ivZero = .ok "V0" :=
  C4_aes_roundtrip extW keyW ivZero "V0" (fun _ _ => rfl) (fun _ hb => hb) rfl rfl

/-- C10: for every nonempty byte string, _unpad_data reads the final byte
k and removes the last k bytes; a k of zero or at least the length yields
the empty byte string instead of an error, and only the empty input is an
error (the IndexError, modelled as none). -/
theorem C10_unpad_total (d : List Nat) (k : Nat) (h : d.getLast? = some k) :
    (k ≠ 0 → _unpad_data d = some (d.take (d.length - k)))
    ∧ ((k = 0 ∨ d.length ≤ k) → _unpad_data d = some [])
    ∧ _unpad_data ([] : List Nat) = none := by
  refine ⟨?_, ?_, rfl⟩
  · intro hk
    simp [_unpad_data, h, pySliceToNeg, hk]
  · rintro (hk | hk)
    · simp [_unpad_data, h, pySliceToNeg, hk]
    · by_cases hk0 : k = 0
      · simp [_unpad_data, h, pySliceToNeg, hk0]
      · have h0 : d.length - k = 0 := Nat.sub_eq_zero_of_le hk
        simp [_unpad_data, h, pySliceToNeg, hk0, h0]

/-- C10 witness: a concrete three-byte input ending in 2. -/
theorem C10_unpad_total_witness :
    ((2 : Nat) ≠ 0 → _unpad_data [5, 6, 2] = some ([5, 6, 2].take ([5, 6, 2].length - 2)))
    ∧ (((2 : Nat) = 0 ∨ [5, 6, 2].length ≤ 2) → _unpad_data [5, 6, 2] = some [])
    ∧ _unpad_data ([] : List Nat) = none :=
  C10_unpad_total [5, 6, 2] 2 rfl

/-! ## Dictionary lemmas -/

lemma hasField_of_lookup (fs : List (String × Json)) (k : String) (v : Json)
    (h : lookupField fs k = some v) : hasField fs k = true := by
  unfold lookupField at h
  cases hf : fs.find? (fun p => p.1 == k) with
  | none => rw [hf] at h; exact absurd h (by simp)
  | some p =>
    unfold hasField
    rw [List.any_eq_true]
    have hp := List.find?_some hf
    exact ⟨p, List.mem_of_find?_eq_some hf, hp⟩

lemma lookup_of_hasField (fs : List (String × Json)) (k : String)
    (h : hasField fs k = true) : ∃ v, lookupField fs k = some v := by
  unfold hasField at h
  rw [List.any_eq_true] at h
  obtain ⟨p, hmem, hp⟩ := h
  unfold lookupField
  cases hf : fs.find? (fun p => p.1 == k) with
  | none => exact absurd hp (List.find?_eq_none.mp hf p hmem)
  | some q => exact ⟨q.2, rfl⟩

lemma lookup_map_replace (fs : List (String × Json)) (k : String) (v : Json)
    (h : fs.any (fun p => p.1 == k) = true) :
    lookupField (fs.map (fun p => if p.1 == k then (k, v) else p)) k = some v := by
  induction fs with
  | nil => simp at h
  | cons p t ih =>
    simp only [List.map_cons]
    by_cases hpk : (p.1 == k) = true
    · rw [if_pos hpk]
      unfold lookupField
      rw [List.find?_cons_of_pos _ (by simp)]
    · rw [if_neg hpk]
      unfold lookupField
      rw [List.find?_cons_of_neg _ (by exact hpk)]
      have ht : t.any (fun q => q.1 == k) = true := by
        have hpk2 : (p.1 == k) = false := Bool.eq_false_iff.mpr hpk
        rw [List.any_cons, hpk2, Bool.false_or] at h
        exact h
      exact ih ht

lemma lookup_append_single (fs : List (String × Json)) (k : String) (v : Json)
    (h : fs.any (fun p => p.1 == k) = false) :
    lookupField (fs ++ [(k, v)]) k = some v := by
  induction fs with
  | nil =>
    unfold lookupField
    rw [List.nil_append, List.find?_cons_of_pos _ (by simp)]
  | cons p t ih =>
    rw [List.any_cons, Bool.or_eq_false_iff] at h
    unfold lookupField
    rw [List.cons_append, List.find?_cons_of_neg _ (by simp [h.1])]
    exact ih h.2

lemma lookup_setField (fs : List (String × Json)) (k : String) (v : Json) :
    lookupField (setField fs k v) k = some v := by
  unfold setField
  by_cases hany : fs.any (fun p => p.1 == k) = true
  · rw [if_pos hany]
    exact lookup_map_replace fs k v hany
  · rw [if_neg hany]
    exact lookup_append_single fs k v (Bool.eq_false_iff.mpr hany)

lemma dictGet_setField (fs : List (String × Json)) (k : String) (v : Json) :
    dictGet (setField fs k v) k Json.null = v := by
  unfold dictGet
  rw [lookup_setField]

lemma pyGetItem_ok_obj (c : Json) (k : String) (v : Json) (h : pyGetItem c k = .ok v) :
    ∃ fs, c = Json.obj fs := by
  cases c with
  | obj fs => exact ⟨fs, rfl⟩
  | null => simp [pyGetItem] at h
  | bool b => simp [pyGetItem] at h
  | num n => simp [pyGetItem] at h
  | str s => simp [pyGetItem] at h
  | arr xs => simp [pyGetItem] at h

/-! ## Characterization of the offline acceptance decision -/

lemma acceptCache_obj (st : ClientState) (fs : List (String × Json)) :
    acceptCache st (Json.obj fs)
      = .ok (true, { st with
          license_info := some (Json.obj (setField fs "offlineMode" (Json.bool true))),
          offline_mode := true }) := rfl

lemma acceptCache_cases (st : ClientState) (cache : Json) (vj : Json)
    (hget : pyGetItem cache "validatedAt" = .ok vj) :
    ∃ fs, acceptCache st cache
        = .ok (true, { st with license_info := some (Json.obj fs), offline_mode := true })
        ∧ dictGet fs "offlineMode" Json.null = Json.bool true := by
  obtain ⟨fs, rfl⟩ := pyGetItem_ok_obj cache _ _ hget
  exact ⟨setField fs "offlineMode" (Json.bool true), acceptCache_obj st fs,
    dictGet_setField fs _ _⟩

lemma pyFromIsoJson_str (f : String → Except Unit Int) (s : String) :
    pyFromIsoJson f (Json.str s) = f s := rfl

lemma checkCache_accept (ext : Externals) (now vAt : Int) (st : ClientState)
    (fs : List (String × Json)) (vs : String)
    (h7 : lookupField fs "validatedAt" = some (Json.str vs))
    (h8 : ext.fromIso vs = .ok vAt) :
    (∃ st2, checkCache ext now st (Json.obj fs)
        = .ok (hasField fs "expiresAt" && graceOk now vAt
            && expiryOk ext.fromIso now (dictGet fs "expiresAt" Json.null), st2)
        ∧ ((hasField fs "expiresAt" && graceOk now vAt
            && expiryOk ext.fromIso now (dictGet fs "expiresAt" Json.null)) = false → st2 = st))
    ∨ (checkCache ext now st (Json.obj fs) = .error st
        ∧ (hasField fs "expiresAt" && graceOk now vAt
            && expiryOk ext.fromIso now (dictGet fs "expiresAt" Json.null)) = false) := by
  have hV : hasField fs "validatedAt" = true := hasField_of_lookup fs _ _ h7
  unfold checkCache
  simp only [pyContains, hV, Bool.not_true, Bool.false_eq_true, if_false]
  by_cases hE : hasField fs "expiresAt" = true
  · simp only [hE, Bool.not_true, Bool.false_eq_true, if_false]
    simp only [pyGetItem, h7, pyFromIsoJson_str, h8]
    by_cases hg : now > vAt + graceSeconds
    · rw [if_pos hg]
      have hgo : graceOk now vAt = false := by
        simp only [graceOk, decide_eq_false_iff_not]
        omega
      simp only [hgo, Bool.and_false, Bool.false_and]
      exact Or.inl ⟨st, rfl, fun _ => rfl⟩
    · rw [if_neg hg]
      have hgo : graceOk now vAt = true := by
        simp only [graceOk, decide_eq_true_eq]
        omega
      obtain ⟨ej, hej⟩ := lookup_of_hasField fs "expiresAt" hE
      have hdg : dictGet fs "expiresAt" Json.null = ej := by
        simp [dictGet, hej]
      simp only [hej, hdg]
      by_cases ht : ej.truthy = true
      · simp only [ht, if_true]
        split
        next e hfe =>
          have hxo : expiryOk ext.fromIso now ej = false := by
            simp [expiryOk, ht, hfe]
          refine Or.inr ⟨rfl, ?_⟩
          simp [hxo]
        next eAt hfe =>
          by_cases hx : now > eAt
          · rw [if_pos hx]
            have hxo : expiryOk ext.fromIso now ej = false := by
              simp only [expiryOk, ht, if_true, hfe, decide_eq_false_iff_not]
              omega
            simp only [hxo, Bool.and_false]
            exact Or.inl ⟨st, rfl, fun _ => rfl⟩
          · rw [if_neg hx]
            have hxo : expiryOk ext.fromIso now ej = true := by
              simp only [expiryOk, ht, if_true, hfe, decide_eq_true_eq]
              omega
            rw [acceptCache_obj]
            simp only [hE, hgo, hxo, Bool.and_true, Bool.true_and]
            exact Or.inl ⟨_, rfl, fun hf => Bool.noConfusion hf⟩
      · have ht2 : ej.truthy = false := Bool.eq_false_iff.mpr ht
        simp only [ht2, Bool.false_eq_true, if_false]
        have hxo : expiryOk ext.fromIso now ej = true := by
          simp [expiryOk, ht2]
        rw [acceptCache_obj]
        simp only [hE, hgo, hxo, Bool.and_true, Bool.true_and]
        exact Or.inl ⟨_, rfl, fun hf => Bool.noConfusion hf⟩
  · have hE2 : hasField fs "expiresAt" = false := Bool.eq_false_iff.mpr hE
    simp only [hE2, Bool.not_false, if_true, Bool.false_and]
    exact Or.inl ⟨st, rfl, fun _ => rfl⟩

lemma validate_offline_accept (ext : Externals) (now vAt : Int) (hwid : String)
    (st : ClientState) (data ivh ch : String) (iv enc : List Nat) (s : String)
    (fs : List (String × Json)) (vs : String)
    (h1 : st.cacheFile = some data)
    (h2 : pySplitColon data = [ivh, ch])
    (h3 : fromHex ivh = some iv)
    (h4 : fromHex ch = some enc)
    (h5 : _decrypt_aes ext enc (_get_encryption_key ext hwid) iv = .ok s)
    (h6 : ext.jsonLoads s = .ok (Json.obj fs))
    (h7 : lookupField fs "validatedAt" = some (Json.str vs))
    (h8 : ext.fromIso vs = .ok vAt) :
    ∃ st2, validate_offline ext true now hwid st
        = .ok (hasField fs "expiresAt" && graceOk now vAt
            && expiryOk ext.fromIso now (dictGet fs "expiresAt" Json.null), st2)
        ∧ ((hasField fs "expiresAt" && graceOk now vAt
            && expiryOk ext.fromIso now (dictGet fs "expiresAt" Json.null)) = false
              → st2 = st) := by
  unfold validate_offline validateOfflineBody
  simp only [h1, h2, h3, h4, Bool.not_true, Bool.false_eq_true, if_false, h5, h6]
  rcases checkCache_accept ext now vAt st fs vs h7 h8 with ⟨st2, hok, himp⟩ | ⟨herr, hA⟩
  · rw [hok]
    exact ⟨st2, rfl, himp⟩
  · rw [herr, hA]
    exact ⟨st, rfl, fun _ => rfl⟩

/-- C1 (amended): for every decryptable cached record that is a JSON
object whose validatedAt entry is a timestamp string the ISO parser
accepts, offline validation accepts the record if and only if the
expiresAt key is present AND now ≤ validatedAt + 7 days AND the expiry
check passes (the stored expiresAt is falsy, or parses to a time not
before now).  In particular a record whose expiresAt key is absent is
rejected even inside the grace window; the original claim said such a
record is accepted, and the counterexample refutes that. -/
theorem C1_offline_accept_iff (ext : Externals) (now vAt : Int) (hwid : String)
    (st : ClientState) (data ivh ch : String) (iv enc : List Nat) (s : String)
    (fs : List (String × Json)) (vs : String)
    (h1 : st.cacheFile = some data)
    (h2 : pySplitColon data = [ivh, ch])
    (h3 : fromHex ivh = some iv)
    (h4 : fromHex ch = some enc)
    (h5 : _decrypt_aes ext enc (_get_encryption_key ext hwid) iv = .ok s)
    (h6 : ext.jsonLoads s = .ok (Json.obj fs))
    (h7 : lookupField fs "validatedAt" = some (Json.str vs))
    (h8 : ext.fromIso vs = .ok vAt) :
    ∃ st2, validate_offline ext true now hwid st
        = .ok (hasField fs "expiresAt" && graceOk now vAt
            && expiryOk ext.fromIso now (dictGet fs "expiresAt" Json.null), st2) := by
  obtain ⟨st2, heq, _⟩ := validate_offline_accept ext now vAt hwid st data ivh ch iv enc s
    fs vs h1 h2 h3 h4 h5 h6 h7 h8
  exact ⟨st2, heq⟩

/-- C1 counterexample: a concrete decryptable cached record well inside
the grace window whose expiresAt key is absent.  The claim says offline
validation must accept it; validate_offline returns False. -/
theorem C1_absent_expiry_rejected :
    cexStA.cacheFile
      = some (toHex ivZero ++ ":" ++ toHex (_encrypt_aes extW demoStrA keyW ivZero))
    ∧ _decrypt_aes extW (_encrypt_aes extW demoStrA keyW ivZero) keyW ivZero = .ok demoStrA
    ∧ extW.jsonLoads demoStrA = .ok (Json.obj [("validatedAt", Json.str "0")])
    ∧ extW.fromIso "0" = .ok 0
    ∧ ((5 : Int) - 0 ≤ graceSeconds)
    ∧ validate_offline extW true 5 "hw" cexStA = .ok (false, cexStA) :=
  ⟨rfl, rfl, rfl, rfl, by decide, rfl⟩

/-- C1 witness: the amended theorem applied to a concrete record that
carries a null expiresAt key and is inside the grace window. -/
theorem C1_offline_accept_iff_witness :
    ∃ st2, validate_offline extW true 5 "hw" cexStB
        = .ok (hasField [("validatedAt", Json.str "0"), ("expiresAt", Json.null)] "expiresAt"
            && graceOk 5 0
            && expiryOk extW.fromIso 5
                (dictGet [("validatedAt", Json.str "0"), ("expiresAt", Json.null)]
                  "expiresAt" Json.null), st2) :=
  C1_offline_accept_iff extW 5 0 "hw" cexStB cexContentB (toHex ivZero)
    (toHex (_encrypt_aes extW demoStrB keyW ivZero)) ivZero
    (_encrypt_aes extW demoStrB keyW ivZero) demoStrB
    [("validatedAt", Json.str "0"), ("expiresAt", Json.null)] "0"
    rfl rfl rfl rfl rfl rfl rfl rfl

/-- C3: grace-period boundary for a decryptable record whose expiresAt is
stored as null (so the expiry check passes).  A validatedAt exactly seven
days plus one second before now is rejected with the state unchanged; a
validatedAt six days twenty-three hours before now is accepted; in
general the verdict is the Boolean of now ≤ validatedAt + 7 days, so the
rejection condition is the strict inequality now > validatedAt + 7 days. -/
theorem C3_grace_boundary (ext : Externals) (now vAt : Int) (hwid : String)
    (st : ClientState) (data ivh ch : String) (iv enc : List Nat) (s : String)
    (fs : List (String × Json)) (vs : String)
    (h1 : st.cacheFile = some data)
    (h2 : pySplitColon data = [ivh, ch])
    (h3 : fromHex ivh = some iv)
    (h4 : fromHex ch = some enc)
    (h5 : _decrypt_aes ext enc (_get_encryption_key ext hwid) iv = .ok s)
    (h6 : ext.jsonLoads s = .ok (Json.obj fs))
    (h7 : lookupField fs "validatedAt" = some (Json.str vs))
    (h8 : ext.fromIso vs = .ok vAt)
    (h9 : lookupField fs "expiresAt" = some Json.null) :
    (now = vAt + graceSeconds + 1 → validate_offline ext true now hwid st = .ok (false, st))
    ∧ (now = vAt + graceSeconds - 3600
        → ∃ st2, validate_offline ext true now hwid st = .ok (true, st2))
    ∧ ∃ st2, validate_offline ext true now hwid st
        = .ok (decide (now ≤ vAt + graceSeconds), st2) := by
  have hE : hasField fs "expiresAt" = true := hasField_of_lookup fs _ _ h9
  have hdg : dictGet fs "expiresAt" Json.null = Json.null := by
    simp [dictGet, h9]
  obtain ⟨st2, heq, himp⟩ := validate_offline_accept ext now vAt hwid st data ivh ch iv enc s
    fs vs h1 h2 h3 h4 h5 h6 h7 h8
  rw [hE, hdg] at heq himp
  have hexp : expiryOk ext.fromIso now Json.null = true := rfl
  rw [hexp] at heq himp
  rw [Bool.true_and, Bool.and_true] at heq himp
  refine ⟨?_, ?_, ?_⟩
  · intro hnow
    have hg : graceOk now vAt = false := by
      subst hnow
      simp only [graceOk, decide_eq_false_iff_not]
      omega
    rw [hg] at heq himp
    have hst := himp rfl
    rw [hst] at heq
    exact heq
  · intro hnow
    have hg : graceOk now vAt = true := by
      subst hnow
      simp only [graceOk, decide_eq_true_eq]
      omega
    rw [hg] at heq
    exact ⟨st2, heq⟩
  · exact ⟨st2, heq⟩

/-- C3 witness: the boundary theorem applied to a concrete cached record
at now equal to validatedAt plus six days twenty-three hours. -/
theorem C3_grace_boundary_witness :
    ∃ st2, validate_offline extW true 601200 "hw" cexStB = .ok (true, st2) :=
  (C3_grace_boundary extW 601200 0 "hw" cexStB cexContentB (toHex ivZero)
    (toHex (_encrypt_aes extW demoStrB keyW ivZero)) ivZero
    (_encrypt_aes extW demoStrB keyW ivZero) demoStrB
    [("validatedAt", Json.str "0"), ("expiresAt", Json.null)] "0"
    rfl rfl rfl rfl rfl rfl rfl rfl rfl).2.1 (by decide)

/-! ## Exhaustive result shapes of validate_offline and save_cache -/

lemma checkCache_cases (ext : Externals) (now : Int) (st : ClientState) (cache : Json) :
    checkCache ext now st cache = .error st
    ∨ checkCache ext now st cache = .ok (false, st)
    ∨ ∃ fs, checkCache ext now st cache
        = .ok (true, { st with license_info := some (Json.obj fs), offline_mode := true })
        ∧ dictGet fs "offlineMode" Json.null = Json.bool true := by
  unfold checkCache
  split
  · exact Or.inl rfl
  · split
    · exact Or.inr (Or.inl rfl)
    · split
      · exact Or.inl rfl
      · split
        · exact Or.inr (Or.inl rfl)
        · split
          · exact Or.inl rfl
          · rename_i vj hget
            split
            · exact Or.inl rfl
            · split
              · exact Or.inr (Or.inl rfl)
              · split
                · exact Or.inl rfl
                · split
                  · split
                    · exact Or.inl rfl
                    · split
                      · exact Or.inr (Or.inl rfl)
                      · exact Or.inr (Or.inr (acceptCache_cases st cache vj hget))
                  · exact Or.inr (Or.inr (acceptCache_cases st cache vj hget))

lemma validateOfflineBody_cases (ext : Externals) (hasCrypto : Bool) (now : Int)
    (hwid : String) (st : ClientState) :
    validateOfflineBody ext hasCrypto now hwid st = .error st
    ∨ validateOfflineBody ext hasCrypto now hwid st = .ok (false, st)
    ∨ ∃ fs, validateOfflineBody ext hasCrypto now hwid st
        = .ok (true, { st with license_info := some (Json.obj fs), offline_mode := true })
        ∧ dictGet fs "offlineMode" Json.null = Json.bool true := by
  unfold validateOfflineBody
  split
  · exact Or.inr (Or.inl rfl)
  · split
    · split
      · split
        · exact Or.inr (Or.inl rfl)
        · split
          · exact Or.inl rfl
          · split
            · exact Or.inl rfl
            · exact checkCache_cases ext now st _
      · exact Or.inl rfl
    · exact Or.inl rfl

lemma validate_offline_cases (ext : Externals) (hasCrypto : Bool) (now : Int)
    (hwid : String) (st : ClientState) :
    validate_offline ext hasCrypto now hwid st = .ok (false, st)
    ∨ ∃ fs, validate_offline ext hasCrypto now hwid st
        = .ok (true, { st with license_info := some (Json.obj fs), offline_mode := true })
        ∧ dictGet fs "offlineMode" Json.null = Json.bool true := by
  rcases validateOfflineBody_cases ext hasCrypto now hwid st with h | h | ⟨fs, h, hd⟩
  · left
    unfold validate_offline
    rw [h]
  · left
    unfold validate_offline
    rw [h]
  · right
    refine ⟨fs, ?_, hd⟩
    unfold validate_offline
    rw [h]

/-- C9: validate_offline leaves the whole client state unchanged on every
False return; on a True return it has set offline_mode, left the cache
file untouched, and stored the cached record (a JSON object whose
offlineMode entry was set to true) in license_info. -/
theorem C9_offline_state_atomic (ext : Externals) (hasCrypto : Bool) (now : Int)
    (hwid : String) (st : ClientState) (b : Bool) (st2 : ClientState)
    (h : validate_offline ext hasCrypto now hwid st = .ok (b, st2)) :
    (b = false → st2 = st)
    ∧ (b = true → st2.offline_mode = true ∧ st2.cacheFile = st.cacheFile
        ∧ ∃ fs, st2.license_info = some (Json.obj fs)
            ∧ dictGet fs "offlineMode" Json.null = Json.bool true) := by
  rcases validate_offline_cases ext hasCrypto now hwid st with h0 | ⟨fs, h0, hd⟩
  · rw [h] at h0
    simp only [Except.ok.injEq, Prod.mk.injEq] at h0
    refine ⟨fun _ => h0.2, fun hb => ?_⟩
    rw [h0.1] at hb
    exact Bool.noConfusion hb
  · rw [h] at h0
    simp only [Except.ok.injEq, Prod.mk.injEq] at h0
    refine ⟨fun hb => ?_, fun _ => ?_⟩
    · rw [h0.1] at hb
      exact Bool.noConfusion hb
    · rw [h0.2]
      exact ⟨rfl, rfl, fs, rfl, hd⟩

/-- C9 witness: the atomicity theorem applied to a client with no cache
file, where validate_offline returns False and the state is unchanged. -/
theorem C9_offline_state_atomic_witness :
    (false = false → stEmpty = stEmpty)
    ∧ (false = true → stEmpty.offline_mode = true ∧ stEmpty.cacheFile = stEmpty.cacheFile
        ∧ ∃ fs, stEmpty.license_info = some (Json.obj fs)
            ∧ dictGet fs "offlineMode" Json.null = Json.bool true) :=
  C9_offline_state_atomic extW true 0 "hw" stEmpty false stEmpty rfl

lemma validate_offline_ok (ext : Externals) (hasCrypto : Bool) (now : Int)
    (hwid : String) (st : ClientState) :
    ∃ r, validate_offline ext hasCrypto now hwid st = .ok r := by
  unfold validate_offline
  split
  · exact ⟨_, rfl⟩
  · exact ⟨_, rfl⟩

/-- C2: for every configuration, environment (any server response, any
cache-file content including a missing or malformed one) and state, the
top-level validate never propagates an exception: its result is always an
ok verdict with a definite Boolean. -/
theorem C2_validate_never_raises (ext : Externals) (cfg : Config) (env : NetEnv)
    (st : ClientState) : ∃ b st2, validate ext cfg env st = .ok (b, st2) := by
  unfold validate
  split
  · exact ⟨false, st, rfl⟩
  · split
    · rename_i r heq
      exact ⟨r.1, r.2, rfl⟩
    · rename_i st2 heq
      obtain ⟨r, hr⟩ := validate_offline_ok ext env.hasCrypto env.offlineNow cfg.hwid st2
      rw [hr]
      exact ⟨r.1, r.2, rfl⟩

lemma saveCacheBody_cases (ext : Externals) (hwid : String) (ivRand : List Nat)
    (hasCrypto : Bool) (st : ClientState) :
    saveCacheBody ext hwid ivRand hasCrypto st = .error st
    ∨ saveCacheBody ext hwid ivRand hasCrypto st = .ok (false, st)
    ∨ ∃ fs, st.license_info = some (Json.obj fs)
        ∧ (dictGet fs "valid" Json.null).truthy = true
        ∧ hasCrypto = true
        ∧ saveCacheBody ext hwid ivRand hasCrypto st
            = .ok (true, { st with cacheFile := some (toHex ivRand ++ ":"
                ++ toHex (_encrypt_aes ext (ext.jsonDumps (Json.obj fs))
                    (_get_encryption_key ext hwid) ivRand)) }) := by
  unfold saveCacheBody
  split
  · exact Or.inr (Or.inl rfl)
  · rename_i li hli
    split
    · exact Or.inr (Or.inl rfl)
    · rename_i hlt
      split
      · rename_i fs
        split
        · exact Or.inr (Or.inl rfl)
        · rename_i hvt
          split
          · exact Or.inr (Or.inl rfl)
          · rename_i hcr
            refine Or.inr (Or.inr ⟨fs, hli, ?_, ?_, rfl⟩)
            · have h2 : (!(dictGet fs "valid" Json.null).truthy) = false :=
                Bool.eq_false_iff.mpr hvt
              simpa using h2
            · have h2 : (!hasCrypto) = false := Bool.eq_false_iff.mpr hcr
              simpa using h2
      · exact Or.inl rfl

lemma save_cache_cases (ext : Externals) (hwid : String) (ivRand : List Nat)
    (hasCrypto : Bool) (st : ClientState) :
    save_cache ext hwid ivRand hasCrypto st = .ok (false, st)
    ∨ ∃ fs, st.license_info = some (Json.obj fs)
        ∧ (dictGet fs "valid" Json.null).truthy = true
        ∧ hasCrypto = true
        ∧ save_cache ext hwid ivRand hasCrypto st
            = .ok (true, { st with cacheFile := some (toHex ivRand ++ ":"
                ++ toHex (_encrypt_aes ext (ext.jsonDumps (Json.obj fs))
                    (_get_encryption_key ext hwid) ivRand)) }) := by
  rcases saveCacheBody_cases ext hwid ivRand hasCrypto st with h | h | ⟨fs, hs, ht, hc, h⟩
  · left
    unfold save_cache
    rw [h]
  · left
    unfold save_cache
    rw [h]
  · right
    refine ⟨fs, hs, ht, hc, ?_⟩
    unfold save_cache
    rw [h]

/-- C6: save_cache with an absent record or a record whose valid field is
the Boolean false returns failure and leaves the whole state (so also the
cache file) unchanged; conversely, whenever a call changes the cache file
the call returned True and the current record was a JSON object whose
valid field is truthy, and equal to true whenever it is a Boolean. -/
theorem C6_no_cache_on_invalid (ext : Externals) (hwid : String) (ivRand : List Nat)
    (hasCrypto : Bool) (st : ClientState) :
    (st.license_info = none → save_cache ext hwid ivRand hasCrypto st = .ok (false, st))
    ∧ (∀ fs, st.license_info = some (Json.obj fs)
        → dictGet fs "valid" Json.null = Json.bool false
        → save_cache ext hwid ivRand hasCrypto st = .ok (false, st))
    ∧ (∀ b st2, save_cache ext hwid ivRand hasCrypto st = .ok (b, st2)
        → st2.cacheFile ≠ st.cacheFile
        → b = true ∧ ∃ fs, st.license_info = some (Json.obj fs)
            ∧ (dictGet fs "valid" Json.null).truthy = true
            ∧ ∀ bv, dictGet fs "valid" Json.null = Json.bool bv → bv = true) := by
  refine ⟨?_, ?_, ?_⟩
  · intro hnone
    unfold save_cache saveCacheBody
    rw [hnone]
  · intro fs hsome hval
    unfold save_cache saveCacheBody
    rw [hsome]
    cases htr : (Json.obj fs).truthy with
    | false => simp only [htr, Bool.not_false, if_true]
    | true =>
      have hvt : (dictGet fs "valid" Json.null).truthy = false := by
        rw [hval]
        rfl
      simp only [htr, Bool.not_true, Bool.false_eq_true, if_false, hvt, Bool.not_false,
        if_true]
  · intro b st2 hrun hchange
    rcases save_cache_cases ext hwid ivRand hasCrypto st with h0 | ⟨fs, hsome, htruthy, _, h0⟩
    · rw [hrun] at h0
      simp only [Except.ok.injEq, Prod.mk.injEq] at h0
      exact absurd (congrArg ClientState.cacheFile h0.2) hchange
    · rw [hrun] at h0
      simp only [Except.ok.injEq, Prod.mk.injEq] at h0
      refine ⟨h0.1, fs, hsome, htruthy, ?_⟩
      intro bv hbv
      rw [hbv] at htruthy
      exact htruthy

/-- C6 witness: a client with no license record; save_cache fails and
leaves the state unchanged. -/
theorem C6_no_cache_on_invalid_witness :
    save_cache extW "hw" ivZero true stEmpty = .ok (false, stEmpty) :=
  (C6_no_cache_on_invalid extW "hw" ivZero true stEmpty).1 rfl

/-- C5: when the key is present and the server responds with a JSON
object whose valid field is falsy, validate stores a record carrying
valid false and the response error message (with its default), returns
False, leaves offline_mode and the cache file unchanged, and never
consults the cached verdict: the outcome is the same for every cache-file
content in the state. -/
theorem C5_server_reject_authoritative (ext : Externals) (cfg : Config) (env : NetEnv)
    (st : ClientState) (fs : List (String × Json))
    (hk : keyMissing cfg.license_key = false)
    (hr : env.serverResponse = .ok (Json.obj fs))
    (hv : (dictGet fs "valid" Json.null).truthy = false) :
    validate ext cfg env st
      = .ok (false, { st with license_info := some (Json.obj
          [("valid", Json.bool false),
           ("error", dictGet fs "error" (Json.str "License validation failed"))]) }) := by
  unfold validate validateBody
  simp only [hk, Bool.false_eq_true, if_false, hr, hv]

/-- C5 witness: concrete rejection response applied to the theorem. -/
theorem C5_server_reject_authoritative_witness :
    validate extW cfgW envReject stEmpty
      = .ok (false, { stEmpty with license_info := some (Json.obj
          [("valid", Json.bool false),
           ("error", dictGet [("valid", Json.bool false)] "error"
              (Json.str "License validation failed"))]) }) :=
  C5_server_reject_authoritative extW cfgW envReject stEmpty
    [("valid", Json.bool false)] rfl rfl rfl

/-- C7: with the license key absent or empty, validate returns False at
once with the state unchanged, for every environment: no network request
and no cache read or write can influence the outcome. -/
theorem C7_missing_key_immediate (ext : Externals) (cfg : Config) (env : NetEnv)
    (st : ClientState) (hk : keyMissing cfg.license_key = true) :
    validate ext cfg env st = .ok (false, st) := by
  unfold validate
  rw [if_pos hk]

/-- C7 witness: a configuration without a key. -/
theorem C7_missing_key_immediate_witness :
    validate extW cfgNoKey envReject stEmpty = .ok (false, stEmpty) :=
  C7_missing_key_immediate extW cfgNoKey envReject stEmpty rfl

/-- C8: with no cryptographic backend, save_cache always fails without
touching the cache file and validate_offline always fails closed with
the state unchanged, whatever the cache file holds; both return an ok
False rather than raising. -/
theorem C8_crypto_unavailable_fails_closed (ext : Externals) (hwid : String)
    (ivRand : List Nat) (now : Int) (st : ClientState) :
    save_cache ext hwid ivRand false st = .ok (false, st)
    ∧ validate_offline ext false now hwid st = .ok (false, st) := by
  constructor
  · rcases save_cache_cases ext hwid ivRand false st with h | ⟨_, _, _, hcr, _⟩
    · exact h
    · exact Bool.noConfusion hcr
  · have hbody : validateOfflineBody ext false now hwid st = .ok (false, st)
        ∨ validateOfflineBody ext false now hwid st = .error st := by
      unfold validateOfflineBody
      split
      · exact Or.inl rfl
      · split
        · split
          · exact Or.inl rfl
          · exact Or.inr rfl
        · exact Or.inr rfl
    rcases hbody with h | h
    · unfold validate_offline
      rw [h]
    · unfold validate_offline
      rw [h]

end HexLicense
